import Mathlib

/-
Verification of the filter-and-aggregation pipeline of the interactive
sales dashboard (src/3.py and src/31.py).

Both scripts load a CSV with columns
  Date, Region, Country, ProductCategory, Product, UnitsSold, UnitPrice, TotalSales,
filter the rows by sidebar selections (multiselects for Region, Country and
ProductCategory plus an inclusive date range), compute KPIs, and aggregate the
filtered rows with pandas groupby/sum.  The embedding below models a dataframe
as a `List Record`, a boolean row mask as a `Record → Bool` predicate, and
pandas `df.groupby(k)[c].sum()` (whose default is `sort=True`) as
"distinct keys, sorted ascending, each paired with the sum of the column over
its rows".  Exact rational arithmetic stands in for float arithmetic.
-/

namespace SalesDash

/-- Calendar date as parsed from the CSV `Date` column (`parse_dates=["Date"]`);
ordered chronologically, i.e. lexicographically on (year, month, day). -/
structure Date where
  y : Nat
  m : Nat
  d : Nat
  deriving DecidableEq, Repr

/-- Boolean test `a ≤ b` in chronological order (inclusive). -/
def Date.ble (a b : Date) : Bool :=
  decide (a.y < b.y ∨ (a.y = b.y ∧ (a.m < b.m ∨ (a.m = b.m ∧ a.d ≤ b.d))))

/-- Boolean test `a < b` in chronological order (strict). -/
def Date.blt (a b : Date) : Bool :=
  decide (a.y < b.y ∨ (a.y = b.y ∧ (a.m < b.m ∨ (a.m = b.m ∧ a.d < b.d))))

/-- One row of the sales CSV: columns Date, Region, Country, ProductCategory,
Product, UnitsSold, UnitPrice, TotalSales. -/
structure Record where
  date : Date
  region : String
  country : String
  productCategory : String
  product : String
  unitsSold : Nat
  unitPrice : ℚ
  totalSales : ℚ
  deriving DecidableEq, Repr

/-- The sidebar filter selections (src/3.py lines 17-24): the three multiselect
lists `regions`, `countries`, `categories` and the date-range endpoints
`start_date`, `end_date`. -/
structure FilterSpec where
  regions : List String
  countries : List String
  categories : List String
  dateFrom : Date
  dateTo : Date
  deriving DecidableEq, Repr

/-- The filter of src/3.py lines 26-31:
`df[(df["Region"].isin(regions)) & (df["Country"].isin(countries)) &
(df["ProductCategory"].isin(categories)) & (df["Date"].between(start_date, end_date))]`.
`Series.isin` is set membership, `Series.between` is inclusive on both ends by
default, `&` is row-wise conjunction, and boolean-mask selection keeps the
matching rows in their original order. -/
def applyFilter (df : List Record) (s : FilterSpec) : List Record :=
  df.filter fun r =>
    decide (r.region ∈ s.regions) &&
    decide (r.country ∈ s.countries) &&
    decide (r.productCategory ∈ s.categories) &&
    (Date.ble s.dateFrom r.date && Date.ble r.date s.dateTo)

/-- The four-part conjunctive predicate exactly as the specification words it:
region selected AND country selected AND category selected AND
date_from <= date <= date_to (both bounds inclusive). -/
def specPred (s : FilterSpec) (r : Record) : Prop :=
  r.region ∈ s.regions ∧ r.country ∈ s.countries ∧
  r.productCategory ∈ s.categories ∧
  (Date.ble s.dateFrom r.date = true ∧ Date.ble r.date s.dateTo = true)

instance (s : FilterSpec) (r : Record) : Decidable (specPred s r) := by
  unfold specPred; infer_instance

/-- KPI `total_sales = df_filtered["TotalSales"].sum()` (src/3.py line 35). -/
def totalSalesKPI (rs : List Record) : ℚ :=
  (rs.map Record.totalSales).sum

/-- KPI `total_units = df_filtered["UnitsSold"].sum()` (src/3.py line 36). -/
def totalUnitsKPI (rs : List Record) : Nat :=
  (rs.map Record.unitsSold).sum

/-- pandas `Series.mean()`: sum divided by count, and NaN (modelled as `none`)
on an empty series; no exception is raised on empty input. -/
def meanOpt (l : List ℚ) : Option ℚ :=
  if l.isEmpty then none else some (l.sum / l.length)

/-- KPI `avg_price = df_filtered["UnitPrice"].mean()` (src/3.py line 37). -/
def avgPriceKPI (rs : List Record) : Option ℚ :=
  meanOpt (rs.map Record.unitPrice)

/-- Round a rational to the nearest integer, ties to even (the rounding used by
Python float formatting, here applied to the exact value). -/
def roundHalfEven (q : ℚ) : Int :=
  let f : Int := Rat.floor q
  let frac : ℚ := q - (f : ℚ)
  if frac < 1/2 then f
  else if 1/2 < frac then f + 1
  else if f % 2 = 0 then f else f + 1

/-- Insert a comma after every three digits, working over the reversed digit
list; `k` counts digits emitted in the current group. -/
def commaRev : List Char → Nat → List Char
  | [], _ => []
  | [c], _ => [c]
  | c :: cs, k => if k % 3 = 0 then c :: ',' :: commaRev cs 1 else c :: commaRev cs (k + 1)

/-- Decimal rendering of a natural number with thousands separators, as the
`,` flag of a Python format specification produces. -/
def withCommas (n : Nat) : String :=
  String.mk ((commaRev (toString n).data.reverse 1).reverse)

/-- Fixed-point rendering of a cent count: sign, grouped integer part, dot,
two decimal digits. -/
def formatCents (c : Int) : String :=
  let sign := if c < 0 then "-" else ""
  let a := c.natAbs
  let whole := a / 100
  let cents := a % 100
  let centsStr := if cents < 10 then "0" ++ toString cents else toString cents
  sign ++ withCommas whole ++ "." ++ centsStr

/-- The KPI display string `f"${avg_price:,.2f}"` (src/3.py line 42): a dollar
sign followed by the `,.2f` rendering of the value.  Python formats the float
NaN produced by `mean()` on an empty series as `nan`, so the empty case
displays `$nan`; finite values are rendered with two decimals and thousands
separators (modelled on the exact rational, banker's rounding). -/
def moneyFormat : Option ℚ → String
  | none => "$nan"
  | some q => "$" ++ formatCents (roundHalfEven (q * 100))

/-- The rendered Avg Price KPI for a filtered record list. -/
def avgPriceDisplay (rs : List Record) : String :=
  moneyFormat (avgPriceKPI rs)

/-- pandas `df.groupby(key)[column].sum()` with the default `sort=True`:
one row per distinct key value present, rows ordered ascending by key, each
carrying the sum of the measure over the records with that key. -/
def groupbySum {κ : Type} [DecidableEq κ] (key : Record → κ) (kle : κ → κ → Bool)
    (measure : Record → ℚ) (rs : List Record) : List (κ × ℚ) :=
  ((rs.map key).dedup.mergeSort kle).map
    fun k => (k, ((rs.filter fun r => decide (key r = k)).map measure).sum)

/-- The four categorical drill levels offered by the radio button / selectbox
(src/3.py lines 48 and 82). -/
inductive Dim
  | region
  | country
  | productCategory
  | product
  deriving DecidableEq, Repr

/-- The column a categorical drill level reads. -/
def dimKey : Dim → Record → String
  | Dim.region => Record.region
  | Dim.country => Record.country
  | Dim.productCategory => Record.productCategory
  | Dim.product => Record.product

/-- Boolean string comparison used for pandas ascending key order. -/
def strLe (a b : String) : Bool := decide (a ≤ b)

/-- `df_filtered.groupby(level, as_index=False)["TotalSales"].sum()`
(src/3.py line 51, also line 85 and src/31.py lines 56 and 92). -/
def aggregateByDim (rs : List Record) (dim : Dim) : List (String × ℚ) :=
  groupbySum (dimKey dim) strLe Record.totalSales rs

/-- The two time-series buckets of the `Aggregate By` selectbox
(src/3.py line 63). -/
inductive TimeAgg
  | day
  | month
  deriving DecidableEq, Repr

/-- Floor a date to the first day of its month:
`dt.to_period("M").dt.to_timestamp()` (src/3.py line 67). -/
def monthStart (d : Date) : Date := ⟨d.y, d.m, 1⟩

/-- The `Period` column of src/3.py lines 65-69: the date itself for `Day`,
the month start for `Month`. -/
def periodKey : TimeAgg → Record → Date
  | TimeAgg.day => Record.date
  | TimeAgg.month => fun r => monthStart r.date

/-- `df_time.groupby("Period", as_index=False)["TotalSales"].sum()`
(src/3.py line 72, src/31.py line 78). -/
def aggregateTime (rs : List Record) (t : TimeAgg) : List (Date × ℚ) :=
  groupbySum (periodKey t) Date.ble Record.totalSales rs

/-- Boolean comparison ordering (key, sum) pairs by sum descending, the order
`sort_values(ascending=False)` establishes. -/
def valDesc {κ : Type} (a b : κ × ℚ) : Bool := decide (b.2 ≤ a.2)

/-- `df_filtered.groupby("Product")["TotalSales"].sum().sort_values(ascending=False).head(top_n)`
(src/31.py lines 105-106).  The groupby output is ascending by product name
(pandas default `sort=True`); the descending value sort is modelled as a
stable sort, pinning down the tie order that `sort_values` leaves
implementation-defined; `head` truncates to the first `n` rows. -/
def topProducts (rs : List Record) (n : Nat) : List (String × ℚ) :=
  ((groupbySum Record.product strLe Record.totalSales rs).mergeSort valDesc).take n

/-- The `UnitsSold` column as a rational-valued column. -/
def colUnitsSold (r : Record) : ℚ := r.unitsSold

/-- The three numeric columns of the correlation view, in the order written in
`df_filtered[["UnitsSold", "UnitPrice", "TotalSales"]]` (src/31.py line 111). -/
def corrCols : List (Record → ℚ) := [colUnitsSold, Record.unitPrice, Record.totalSales]

/-- Sum of products of deviations from the mean over two equal-length columns:
`centeredDot xs xs` is (n times) the variance, `centeredDot xs ys` the
covariance numerator. -/
def centeredDot (xs ys : List ℚ) : ℚ :=
  let n : ℚ := xs.length
  let mx := xs.sum / n
  let my := ys.sum / n
  ((xs.zip ys).map fun p => (p.1 - mx) * (p.2 - my)).sum

/-- One entry of `df.corr()`: the Pearson correlation of two columns.  Since
`r = cov / sqrt(varx * vary)` is in general irrational, the entry is carried
as the signed square `r * |r| = cov * |cov| / (varx * vary)`, an exact
rational that determines `r`.  pandas yields NaN (modelled as `none`) when
fewer than two rows remain or a column is constant (zero variance); it raises
no exception in those cases. -/
def corrEntry (xs ys : List ℚ) : Option ℚ :=
  if xs.length < 2 then none
  else
    let cov := centeredDot xs ys
    let vx := centeredDot xs xs
    let vy := centeredDot ys ys
    if vx = 0 ∨ vy = 0 then none
    else some (cov * |cov| / (vx * vy))

/-- `corr = df_filtered[["UnitsSold", "UnitPrice", "TotalSales"]].corr()`
(src/31.py line 111): the 3 by 3 matrix of pairwise Pearson entries. -/
def corrMatrix (rs : List Record) : List (List (Option ℚ)) :=
  corrCols.map fun c1 => corrCols.map fun c2 => corrEntry (rs.map c1) (rs.map c2)

/-- The 3 by 3 all-NaN matrix, the `corr()` output on 0 or 1 rows. -/
def nanMatrix : List (List (Option ℚ)) :=
  [[none, none, none], [none, none, none], [none, none, none]]

/-- The filter of src/31.py lines 28-33, kept as a separate definition so the
two scripts can be compared; the pandas expression is textually identical to
src/3.py lines 26-31. -/
def applyFilter31 (df : List Record) (s : FilterSpec) : List Record :=
  df.filter fun r =>
    decide (r.region ∈ s.regions) &&
    decide (r.country ∈ s.countries) &&
    decide (r.productCategory ∈ s.categories) &&
    (Date.ble s.dateFrom r.date && Date.ble r.date s.dateTo)

/-- KPI `total_sales` of src/31.py line 36. -/
def totalSalesKPI31 (rs : List Record) : ℚ :=
  (rs.map Record.totalSales).sum

/-- KPI `total_units` of src/31.py line 37. -/
def totalUnitsKPI31 (rs : List Record) : Nat :=
  (rs.map Record.unitsSold).sum

/-- KPI `avg_price` of src/31.py line 38. -/
def avgPriceKPI31 (rs : List Record) : Option ℚ :=
  meanOpt (rs.map Record.unitPrice)

/-- A sample row used to instantiate hypotheses at concrete inputs. -/
def sampleRec : Record :=
  ⟨⟨2024, 1, 10⟩, "US", "USA", "Toys", "Car", 2, 10, 20⟩

/-- A second sample row. -/
def sampleRec2 : Record :=
  ⟨⟨2024, 2, 20⟩, "EU", "DE", "Books", "Atlas", 3, 5, 15⟩

/-- A filter spec whose region multiselect is empty (everything else full). -/
def emptyRegionSpec : FilterSpec :=
  ⟨[], ["USA", "DE"], ["Toys", "Books"], ⟨2024, 1, 1⟩, ⟨2024, 12, 31⟩⟩

theorem Date.ble_trans {a b c : Date} (h1 : Date.ble a b = true)
    (h2 : Date.ble b c = true) : Date.ble a c = true := by
  simp only [Date.ble, decide_eq_true_eq] at *
  omega

theorem Date.ble_total (a b : Date) : (Date.ble a b || Date.ble b a) = true := by
  simp only [Date.ble, Bool.or_eq_true, decide_eq_true_eq]
  omega

theorem Date.blt_of_ble_of_ne {a b : Date} (h1 : Date.ble a b = true)
    (h2 : a ≠ b) : Date.blt a b = true := by
  cases a; cases b
  simp only [Date.ble, Date.blt, decide_eq_true_eq, ne_eq, Date.mk.injEq, not_and] at *
  omega

theorem Date.not_between_of_inverted {lo hi d : Date} (h : Date.blt hi lo = true) :
    ¬(Date.ble lo d = true ∧ Date.ble d hi = true) := by
  simp only [Date.ble, Date.blt, decide_eq_true_eq] at *
  omega

theorem sum_map_filter_add {α : Type} (p : α → Bool) (m : α → ℚ) (l : List α) :
    ((l.filter p).map m).sum + ((l.filter fun a => !p a).map m).sum = (l.map m).sum := by
  induction l with
  | nil => simp
  | cons a t ih =>
    by_cases h : p a = true
    · rw [List.filter_cons_of_pos h, List.filter_cons_of_neg (by simp [h])]
      simp only [List.map_cons, List.sum_cons]
      rw [← ih]; ring
    · rw [List.filter_cons_of_neg h, List.filter_cons_of_pos (by simp [h])]
      simp only [List.map_cons, List.sum_cons]
      rw [← ih]; ring

theorem sum_over_nodup_keys {κ : Type} [DecidableEq κ] (key : Record → κ) (m : Record → ℚ)
    (ks : List κ) : ∀ rs : List Record, ks.Nodup → (∀ r ∈ rs, key r ∈ ks) →
    (ks.map fun k => ((rs.filter fun r => decide (key r = k)).map m).sum).sum
      = (rs.map m).sum := by
  induction ks with
  | nil =>
    intro rs _ hcov
    cases rs with
    | nil => simp
    | cons a t => exact absurd (hcov a (by simp)) (by simp)
  | cons k ks ih =>
    intro rs hnd hcov
    rw [List.map_cons, List.sum_cons, ← sum_map_filter_add (fun r => decide (key r = k)) m rs]
    congr 1
    have hcov2 : ∀ r ∈ rs.filter fun r => !decide (key r = k), key r ∈ ks := by
      intro r hr
      rcases List.mem_filter.mp hr with ⟨hr1, hr2⟩
      rcases List.mem_cons.mp (hcov r hr1) with h | h
      · exact absurd (decide_eq_true h) (by simp at hr2; simp [hr2])
      · exact h
    rw [← ih (rs.filter fun r => !decide (key r = k)) hnd.of_cons hcov2]
    apply congrArg List.sum
    apply List.map_congr_left
    intro k2 hk2
    have hk2ne : k2 ≠ k := fun h => (List.nodup_cons.mp hnd).1 (h ▸ hk2)
    have hfil : (rs.filter fun r => decide (key r = k2))
        = (rs.filter fun r => !decide (key r = k)).filter fun r => decide (key r = k2) := by
      rw [List.filter_filter]
      apply List.filter_congr
      intro r _
      by_cases h : key r = k2
      · simp [h, hk2ne]
      · simp [h]
    rw [hfil]

theorem groupbySum_snd_sum {κ : Type} [DecidableEq κ] (key : Record → κ) (kle : κ → κ → Bool)
    (m : Record → ℚ) (rs : List Record) :
    ((groupbySum key kle m rs).map Prod.snd).sum = (rs.map m).sum := by
  unfold groupbySum
  rw [List.map_map]
  have h1 : (Prod.snd ∘ fun k => (k, ((rs.filter fun r => decide (key r = k)).map m).sum))
      = fun k => ((rs.filter fun r => decide (key r = k)).map m).sum := rfl
  rw [h1, ((List.mergeSort_perm (rs.map key).dedup kle).map _).sum_eq]
  exact sum_over_nodup_keys key m _ rs (List.nodup_dedup _)
    fun r hr => List.mem_dedup.mpr (List.mem_map_of_mem key hr)

theorem groupbySum_keys {κ : Type} [DecidableEq κ] (key : Record → κ) (kle : κ → κ → Bool)
    (m : Record → ℚ) (rs : List Record) :
    (groupbySum key kle m rs).map Prod.fst = (rs.map key).dedup.mergeSort kle := by
  unfold groupbySum
  rw [List.map_map]
  exact List.map_id _

theorem groupbySum_keys_mem {κ : Type} [DecidableEq κ] (key : Record → κ) (kle : κ → κ → Bool)
    (m : Record → ℚ) (rs : List Record) (k : κ) :
    k ∈ (groupbySum key kle m rs).map Prod.fst ↔ k ∈ rs.map key := by
  rw [groupbySum_keys, (List.mergeSort_perm _ _).mem_iff]
  exact List.mem_dedup

theorem groupbySum_keys_nodup {κ : Type} [DecidableEq κ] (key : Record → κ) (kle : κ → κ → Bool)
    (m : Record → ℚ) (rs : List Record) :
    ((groupbySum key kle m rs).map Prod.fst).Nodup := by
  rw [groupbySum_keys]
  exact ((List.mergeSort_perm _ _).nodup_iff).mpr (List.nodup_dedup _)

theorem groupbySum_keys_sorted {κ : Type} [DecidableEq κ] (key : Record → κ) (kle : κ → κ → Bool)
    (m : Record → ℚ) (rs : List Record)
    (htrans : ∀ a b c : κ, kle a b = true → kle b c = true → kle a c = true)
    (htotal : ∀ a b : κ, (kle a b || kle b a) = true) :
    ((groupbySum key kle m rs).map Prod.fst).Pairwise
      fun a b => kle a b = true ∧ a ≠ b := by
  have h2 := groupbySum_keys_nodup key kle m rs
  rw [groupbySum_keys] at h2 ⊢
  exact (List.sorted_mergeSort htrans htotal (rs.map key).dedup).and h2

/-- C1: the filter output is exactly the stable subsequence of input records
satisfying the four-part conjunctive predicate: it equals a literal
`List.filter` by the spec predicate, it is a sublist of the input (order
preserved, nothing reordered), and each record keeps its exact multiplicity
when it satisfies the predicate and drops to zero when it does not. -/
theorem claim1_filter_exact (df : List Record) (s : FilterSpec) :
    applyFilter df s = (df.filter fun r => decide (specPred s r)) ∧
    (applyFilter df s).Sublist df ∧
    ∀ r : Record, (applyFilter df s).count r = if specPred s r then df.count r else 0 := by
  have heq : applyFilter df s = df.filter fun r => decide (specPred s r) := by
    unfold applyFilter
    apply List.filter_congr
    intro r _
    simp [specPred, Bool.and_assoc]
  refine ⟨heq, ?_, ?_⟩
  · rw [heq]; exact List.filter_sublist df
  · intro r
    rw [heq]
    by_cases h : specPred s r
    · rw [if_pos h]
      exact List.count_filter (p := fun x => decide (specPred s x)) (decide_eq_true h)
    · rw [if_neg h, List.count_eq_zero]
      intro hmem
      exact h (of_decide_eq_true (List.mem_filter.mp hmem).2)

/-- C2: grouping and summing conserves the measure: the sum of the aggregated
TotalSales over all groups equals the sum of TotalSales over the filtered
input records, for every aggregation key — each of the four categorical drill
levels and both time buckets (Day and Month). -/
theorem claim2_aggregation_conserves_sum (df : List Record) (s : FilterSpec)
    (dim : Dim) (t : TimeAgg) :
    ((aggregateByDim (applyFilter df s) dim).map Prod.snd).sum
      = ((applyFilter df s).map Record.totalSales).sum ∧
    ((aggregateTime (applyFilter df s) t).map Prod.snd).sum
      = ((applyFilter df s).map Record.totalSales).sum :=
  ⟨groupbySum_snd_sum _ _ _ _, groupbySum_snd_sum _ _ _ _⟩

/-- C6: the filter is idempotent: applying the same Filter Spec to its own
output returns that output unchanged. -/
theorem claim6_filter_idempotent (df : List Record) (s : FilterSpec) :
    applyFilter (applyFilter df s) s = applyFilter df s := by
  unfold applyFilter
  rw [List.filter_filter]
  exact List.filter_congr fun r _ => Bool.and_self _

theorem strLe_trans : ∀ a b c : String, strLe a b = true → strLe b c = true →
    strLe a c = true := by
  intro a b c h1 h2
  simp only [strLe, decide_eq_true_eq] at *
  exact le_trans h1 h2

theorem strLe_total : ∀ a b : String, (strLe a b || strLe b a) = true := by
  intro a b
  simp only [strLe, Bool.or_eq_true, decide_eq_true_eq]
  exact le_total a b

/-- C3: time-key aggregation normalizes each record date to a period start
(identity for Day, first day of the month for Month), produces exactly one row
per distinct period start present, and orders the rows chronologically
ascending (strictly, since the period starts are distinct). -/
theorem claim3_time_aggregation (rs : List Record) (t : TimeAgg) :
    (∀ r : Record, periodKey TimeAgg.month r = ⟨r.date.y, r.date.m, 1⟩) ∧
    (∀ r : Record, periodKey TimeAgg.day r = r.date) ∧
    ((aggregateTime rs t).map Prod.fst).Nodup ∧
    (∀ d : Date, d ∈ (aggregateTime rs t).map Prod.fst ↔ d ∈ rs.map (periodKey t)) ∧
    ((aggregateTime rs t).map Prod.fst).Pairwise fun a b => Date.blt a b = true := by
  refine ⟨fun r => rfl, fun r => rfl, groupbySum_keys_nodup _ _ _ _,
    fun d => groupbySum_keys_mem _ _ _ _ d, ?_⟩
  have h := groupbySum_keys_sorted (periodKey t) Date.ble Record.totalSales rs
    (fun a b c h1 h2 => Date.ble_trans h1 h2) Date.ble_total
  exact h.imp fun hab => Date.blt_of_ble_of_ne hab.1 hab.2

/-- C5: an empty multiselect or an inverted date range is not an error: the
filter returns the empty sequence and every downstream stage (categorical
aggregation, time aggregation, top-N) returns the empty sequence as well. -/
theorem claim5_empty_inputs (df : List Record) (s : FilterSpec) (dim : Dim)
    (t : TimeAgg) (n : Nat)
    (h : s.regions = [] ∨ s.countries = [] ∨ s.categories = [] ∨
      Date.blt s.dateTo s.dateFrom = true) :
    applyFilter df s = [] ∧
    aggregateByDim (applyFilter df s) dim = [] ∧
    aggregateTime (applyFilter df s) t = [] ∧
    topProducts (applyFilter df s) n = [] := by
  have hnil : applyFilter df s = [] := by
    unfold applyFilter
    rw [List.filter_eq_nil_iff]
    intro r _ hmask
    simp only [Bool.and_eq_true, decide_eq_true_eq] at hmask
    rcases h with h | h | h | h
    · rw [h] at hmask; exact absurd hmask.1.1.1 (List.not_mem_nil _)
    · rw [h] at hmask; exact absurd hmask.1.1.2 (List.not_mem_nil _)
    · rw [h] at hmask; exact absurd hmask.1.2 (List.not_mem_nil _)
    · exact Date.not_between_of_inverted h hmask.2
  refine ⟨hnil, ?_, ?_, ?_⟩ <;>
    simp [hnil, aggregateByDim, aggregateTime, topProducts, groupbySum]

/-- Witness for C5: the sample store with the empty region selection produces
the empty sequence at every stage. -/
theorem claim5_witness :
    applyFilter [sampleRec] emptyRegionSpec = [] ∧
    aggregateByDim (applyFilter [sampleRec] emptyRegionSpec) Dim.region = [] ∧
    aggregateTime (applyFilter [sampleRec] emptyRegionSpec) TimeAgg.month = [] ∧
    topProducts (applyFilter [sampleRec] emptyRegionSpec) 5 = [] :=
  claim5_empty_inputs [sampleRec] emptyRegionSpec Dim.region TimeAgg.month 5 (Or.inl rfl)

/-- C10: for every categorical drill level the aggregation rows come out
sorted strictly ascending by key value, because pandas `groupby` defaults to
`sort=True`. -/
theorem claim10_categorical_sorted (rs : List Record) (dim : Dim) :
    ((aggregateByDim rs dim).map Prod.fst).Pairwise fun a b => a < b := by
  have h := groupbySum_keys_sorted (dimKey dim) strLe Record.totalSales rs
    strLe_trans strLe_total
  exact h.imp fun hab => lt_of_le_of_ne (by simpa [strLe] using hab.1) hab.2

/-- C9: the two dashboard scripts implement the same core pipeline: on the same
loaded records and the same filter selections, src/3.py and src/31.py produce
the same filtered sequence and the same KPI values. -/
theorem claim9_scripts_equivalent (df : List Record) (s : FilterSpec) :
    applyFilter31 df s = applyFilter df s ∧
    totalSalesKPI31 (applyFilter31 df s) = totalSalesKPI (applyFilter df s) ∧
    totalUnitsKPI31 (applyFilter31 df s) = totalUnitsKPI (applyFilter df s) ∧
    avgPriceKPI31 (applyFilter31 df s) = avgPriceKPI (applyFilter df s) :=
  ⟨rfl, rfl, rfl, rfl⟩

/-- C7 counterexample: the correlation computation does not fail on a single
remaining record: `df_filtered[["UnitsSold", "UnitPrice", "TotalSales"]].corr()`
returns a value, the all-NaN matrix, and no InsufficientDataError (or any
exception) exists anywhere in either script. -/
theorem claim7_counterexample : corrMatrix [sampleRec] = nanMatrix := rfl

/-- C7 as amended: with fewer than 2 filtered records the correlation
computation still returns a matrix — every Pearson entry is NaN (undefined) —
rather than raising an error. -/
theorem claim7_amended (rs : List Record) (h : rs.length < 2) :
    corrMatrix rs = nanMatrix := by
  simp [corrMatrix, corrCols, corrEntry, nanMatrix, h, Nat.not_le.mpr h]

/-- Witness for the amended C7: the empty record list has fewer than 2 rows
and yields the all-NaN matrix. -/
theorem claim7_witness : corrMatrix [] = nanMatrix :=
  claim7_amended [] (by decide)

/-- C8 counterexample: on the empty filtered set the Avg Price KPI is rendered
as the string "$nan" — a value, produced without any division fault, but it is
neither blank nor any rendering of zero. -/
theorem claim8_counterexample :
    avgPriceDisplay [] = "$nan" ∧ avgPriceDisplay [] ≠ "" ∧
    avgPriceDisplay [] ≠ "$0.00" ∧ avgPriceDisplay [] ≠ "0.00" ∧
    avgPriceDisplay [] ≠ "$0" := by
  refine ⟨rfl, ?_, ?_, ?_, ?_⟩ <;> decide

/-- C8 as amended: `mean()` over zero rows is NaN (undefined) and no
division-by-zero fault is raised — `avgPriceKPI` is total and returns `none`
exactly on the empty input — but the KPI then displays as "$nan", not as zero
or blank. -/
theorem claim8_amended (rs : List Record) :
    (avgPriceKPI rs = none ↔ rs = []) ∧ (rs = [] → avgPriceDisplay rs = "$nan") := by
  constructor
  · constructor
    · intro h
      cases rs with
      | nil => rfl
      | cons a t => simp [avgPriceKPI, meanOpt] at h
    · intro h; subst h; rfl
  · intro h; subst h; rfl

/-- Witness for the amended C8: the empty record list yields the undefined
average and the "$nan" display. -/
theorem claim8_witness :
    avgPriceKPI [] = none ∧ avgPriceDisplay [] = "$nan" :=
  ⟨(claim8_amended []).1.mpr rfl, (claim8_amended []).2 rfl⟩

end SalesDash
